import Mathlib

/-!
Shallow embedding of the campus event registration backend (src/app.py):
the in-memory TTL cache (MemoryCache), the token-bucket rate limiter
(TokenBucketRateLimiter), the captcha service (CaptchaService), and the
admission / cancellation controllers (submit_registration at lines 290-342,
cancel_registration at lines 357-370).

Modelling conventions:
- Instants (time.time values) and token counts are rationals.
- Python dicts become association lists with a lookup / insert / erase API.
- The cache keys used by the program (quota:<id>, event:<id>, event:list,
  session:<sid>) are pairwise distinct strings, so they are rendered as a
  structured CacheKey type.
- Cached Python values are either numbers (CVal.int, the quota counters) or
  non-numeric payloads such as event projections and session dicts
  (CVal.obj); arithmetic on a CVal.obj models the TypeError Python would
  raise, so incr and decr return Option.
- Python str.lower is modelled by lowerStr (ASCII lowering of the char list).
- An uncaught Python exception propagating out of a handler is the
  Outcome.exn result; the state component returned with it is the state of
  the shared in-memory objects at the moment the exception escapes, with
  uncommitted database work rolled back (sqlite connections that are closed
  or garbage collected without commit discard their changes).
-/

deriving instance DecidableEq for Except

namespace CampusEvent

/-- Lookup in an association list (Python dict read). -/
def alookup {α β : Type} [DecidableEq α] (k : α) : List (α × β) → Option β
  | [] => none
  | p :: t => if p.1 = k then some p.2 else alookup k t

/-- Remove every binding of a key (Python dict del / pop). -/
def aerase {α β : Type} [DecidableEq α] (k : α) : List (α × β) → List (α × β)
  | [] => []
  | p :: t => if p.1 = k then aerase k t else p :: aerase k t

/-- Overwrite the binding of a key (Python dict write). -/
def ainsert {α β : Type} [DecidableEq α] (k : α) (v : β) (l : List (α × β)) :
    List (α × β) :=
  (k, v) :: aerase k l

/-- ASCII lowercase of one character, as Python str.lower acts on the
code alphabet (uppercase letters and digits). -/
def lowerChar (c : Char) : Char :=
  if 65 ≤ c.toNat ∧ c.toNat ≤ 90 then Char.ofNat (c.toNat + 32) else c

/-- Python str.lower composed with comparison: the lowered character list. -/
def lowerStr (s : String) : List Char := s.data.map lowerChar

/-- The distinct cache key shapes the program uses (f-strings in app.py). -/
inductive CacheKey where
  | quota (eventId : Nat)
  | eventDetail (eventId : Nat)
  | eventList
  | session (sid : String)
deriving DecidableEq

/-- A cached Python value: a number (quota counter) or a non-numeric
payload (event projection dict/list, session dict). -/
inductive CVal where
  | int (n : Int)
  | obj (payload : String)
deriving DecidableEq

/-- MemoryCache state: the _cache and _expiry dicts (app.py lines 84-87). -/
structure MemoryCache where
  cache : List (CacheKey × CVal)
  expiry : List (CacheKey × ℚ)
deriving DecidableEq

/-- MemoryCache.get (lines 89-95): if the key has an expiry stamp in the
past, delete the entry from both dicts and report absent; otherwise return
the stored value if any. -/
def MemoryCache.get (c : MemoryCache) (now : ℚ) (key : CacheKey) :
    MemoryCache × Option CVal :=
  match alookup key c.expiry with
  | some e =>
      if e < now then (⟨aerase key c.cache, aerase key c.expiry⟩, none)
      else (c, alookup key c.cache)
  | none => (c, alookup key c.cache)

/-- MemoryCache.set (lines 97-100): store the value and stamp now + ttl. -/
def MemoryCache.set (c : MemoryCache) (now : ℚ) (key : CacheKey) (v : CVal)
    (ttl : ℚ) : MemoryCache :=
  ⟨ainsert key v c.cache, ainsert key (now + ttl) c.expiry⟩

/-- MemoryCache.delete (lines 102-105): pop from both dicts. -/
def MemoryCache.delete (c : MemoryCache) (key : CacheKey) : MemoryCache :=
  ⟨aerase key c.cache, aerase key c.expiry⟩

/-- MemoryCache.incr (lines 107-111): read the raw dict with default 0 (no
expiry consultation), add 1, store and return. none models the TypeError
raised when the stored value is not a number. -/
def MemoryCache.incr (c : MemoryCache) (key : CacheKey) :
    Option (MemoryCache × Int) :=
  match (alookup key c.cache).getD (.int 0) with
  | .obj _ => none
  | .int v => some (⟨ainsert key (.int (v + 1)) c.cache, c.expiry⟩, v + 1)

/-- MemoryCache.decr (lines 113-117): same as incr with delta -1. -/
def MemoryCache.decr (c : MemoryCache) (key : CacheKey) :
    Option (MemoryCache × Int) :=
  match (alookup key c.cache).getD (.int 0) with
  | .obj _ => none
  | .int v => some (⟨ainsert key (.int (v - 1)) c.cache, c.expiry⟩, v - 1)

/-- The numeric reading of a cached counter: the stored integer, or 0 when
the key is absent (the default both incr and decr use). -/
def MemoryCache.counterVal (c : MemoryCache) (key : CacheKey) : Int :=
  match alookup key c.cache with
  | some (.int v) => v
  | _ => 0

/-- One token bucket (app.py line 135): tokens and last refill instant. -/
structure Bucket where
  tokens : ℚ
  last_refill : ℚ
deriving DecidableEq

/-- TokenBucketRateLimiter state (lines 122-128). -/
structure RateLimiter where
  capacity : ℚ
  refill_rate : ℚ
  buckets : List (String × Bucket)
deriving DecidableEq

/-- TokenBucketRateLimiter.allow (lines 130-146): create the bucket at full
capacity on first use, refill lazily from elapsed time clamped to capacity,
then spend one token if at least one is available. -/
def RateLimiter.allow (rl : RateLimiter) (now : ℚ) (key : String) :
    RateLimiter × Bool :=
  let b := (alookup key rl.buckets).getD ⟨rl.capacity, now⟩
  let tokens := min rl.capacity (b.tokens + (now - b.last_refill) * rl.refill_rate)
  if 1 ≤ tokens then
    ({rl with buckets := ainsert key ⟨tokens - 1, now⟩ rl.buckets}, true)
  else
    ({rl with buckets := ainsert key ⟨tokens, now⟩ rl.buckets}, false)

/-- The limiter state after n successive allow calls for one key at one
fixed instant (a cold-start burst with no time elapsing). -/
def RateLimiter.allowSeq (rl : RateLimiter) (now : ℚ) (key : String) :
    Nat → RateLimiter
  | 0 => rl
  | n + 1 => ((rl.allowSeq now key n).allow now key).1

/-- The boolean result of the (n+1)-st allow call in a same-instant burst. -/
def RateLimiter.nthAllow (rl : RateLimiter) (now : ℚ) (key : String)
    (n : Nat) : Bool :=
  ((rl.allowSeq now key n).allow now key).2

/-- One stored captcha challenge (app.py line 158). -/
structure Challenge where
  code : String
  time : ℚ
deriving DecidableEq

/-- CaptchaService state: the _codes dict (lines 151-154). -/
structure CaptchaService where
  codes : List (String × Challenge)
deriving DecidableEq

/-- CaptchaService.verify (lines 161-171). The session id and the user
input arrive from request JSON, so either may be absent (Python None): a
missing session id fails the membership test and yields false, but a
missing user input reaches user_input.lower() and raises AttributeError,
modelled by Except.error. On an unexpired stored challenge the code is
deleted only when the lowered strings match. -/
def CaptchaService.verify (s : CaptchaService) (now : ℚ)
    (sessionId : Option String) (userInput : Option String) :
    Except Unit (CaptchaService × Bool) :=
  match sessionId with
  | none => .ok (s, false)
  | some sid =>
    match alookup sid s.codes with
    | none => .ok (s, false)
    | some stored =>
      if 300 < now - stored.time then .ok (⟨aerase sid s.codes⟩, false)
      else
        match userInput with
        | none => .error ()
        | some input =>
          if lowerStr stored.code = lowerStr input then
            .ok (⟨aerase sid s.codes⟩, true)
          else .ok (s, false)

/-- One row of the event table, the columns the controller reads. -/
structure EventRec where
  max_participants : Int
  current_participants : Int
deriving DecidableEq

/-- The durable store: event rows keyed by id, and the registration table
as its (event_id, user_id) pairs, UNIQUE per the schema. -/
structure DB where
  events : List (Nat × EventRec)
  registrations : List (Nat × Nat)
deriving DecidableEq

/-- UPDATE event SET current_participants = current_participants + d
WHERE id = eventId (lines 334 and 365). -/
def DB.bumpOccupancy (db : DB) (eventId : Nat) (d : Int) : DB :=
  { db with
    events := db.events.map fun p =>
      if p.1 = eventId then
        (p.1, ⟨p.2.max_participants, p.2.current_participants + d⟩)
      else p }

/-- DELETE FROM registration WHERE event_id = ? AND user_id = ? (line 362). -/
def removeReg (l : List (Nat × Nat)) (eventId userId : Nat) :
    List (Nat × Nat) :=
  l.filter fun p => decide (p ≠ (eventId, userId))

/-- The distinct results a registration or cancellation handler can
produce: the tagged HTTP responses of app.py, plus exn for an exception
escaping the handler. -/
inductive Outcome where
  | granted
  | rateLimited
  | invalidChallenge
  | eventNotFound
  | capacityFull
  | alreadyRegistered
  | success
  | exn
deriving DecidableEq

/-- The process-wide shared state: cache, limiter, captcha store and the
durable database. -/
structure SysState where
  cache : MemoryCache
  limiter : RateLimiter
  captcha : CaptchaService
  db : DB
deriving DecidableEq

/-- Step 3 of submit_registration (lines 307-318): read quota:<eventId>
from the cache; on a miss read the event row, compute remaining capacity
and seed the cache with a 3600 second ttl. none in the second component
means the event row does not exist (the 404 path). -/
def materializeQuota (c : MemoryCache) (db : DB) (now : ℚ) (eventId : Nat) :
    MemoryCache × Option CVal :=
  match (c.get now (.quota eventId)).2 with
  | some v => ((c.get now (.quota eventId)).1, some v)
  | none =>
    match alookup eventId db.events with
    | none => ((c.get now (.quota eventId)).1, none)
    | some ev =>
      (MemoryCache.set (c.get now (.quota eventId)).1 now (.quota eventId)
        (.int (ev.max_participants - ev.current_participants)) 3600,
       some (.int (ev.max_participants - ev.current_participants)))

/-- Step 4 of submit_registration (lines 324-329): decrement the cached
quota; if the result is negative, increment it back and deny. The boolean
is true when the request is denied for exhausted capacity; none models a
TypeError from arithmetic on a non-numeric cached value. -/
def preDeduct (c : MemoryCache) (key : CacheKey) :
    Option (MemoryCache × Bool) :=
  match c.decr key with
  | none => none
  | some p =>
    if p.2 < 0 then
      match p.1.incr key with
      | none => none
      | some q => some (q.1, true)
    else some (p.1, false)

/-- Step 5 of submit_registration (lines 331-342): the durable commit.
fault injects a store failure other than the uniqueness conflict (for
example a locked database); the code has no handler for it, so the
exception escapes with the uncommitted transaction rolled back and the
cache untouched. A duplicate (event_id, user_id) raises IntegrityError,
which the code answers by re-incrementing the cached quota. On success the
reservation row is inserted, occupancy incremented, and the per-event
detail cache entry deleted. -/
def commitStep (st : SysState) (userId eventId : Nat) (fault : Bool) :
    SysState × Outcome :=
  if fault then (st, .exn)
  else if (eventId, userId) ∈ st.db.registrations then
    match st.cache.incr (.quota eventId) with
    | none => (st, .exn)
    | some q => ({st with cache := q.1}, .alreadyRegistered)
  else
    ({st with
        db := { (st.db.bumpOccupancy eventId 1) with
                registrations := (eventId, userId) :: st.db.registrations },
        cache := st.cache.delete (.eventDetail eventId)}, .granted)

/-- Steps 4 and 5 chained, as the tail of submit_registration. -/
def step45 (st : SysState) (userId eventId : Nat) (fault : Bool) :
    SysState × Outcome :=
  match preDeduct st.cache (.quota eventId) with
  | none => (st, .exn)
  | some p =>
    if p.2 then ({st with cache := p.1}, .capacityFull)
    else commitStep {st with cache := p.1} userId eventId fault

/-- submit_registration (lines 290-342): rate limit, captcha, quota
materialization and threshold check, pre-deduction, durable commit. The
captcha input and session come from request JSON and may be absent. -/
def submit_registration (st : SysState) (now : ℚ) (userId eventId : Nat)
    (captchaInput captchaSession : Option String) (fault : Bool) :
    SysState × Outcome :=
  let ra := st.limiter.allow now ("reg:" ++ toString userId)
  let st1 : SysState := {st with limiter := ra.1}
  if ra.2 = false then (st1, .rateLimited)
  else
    match st1.captcha.verify now captchaSession captchaInput with
    | .error _ => (st1, .exn)
    | .ok vr =>
      let st2 : SysState := {st1 with captcha := vr.1}
      if vr.2 = false then (st2, .invalidChallenge)
      else
        let m := materializeQuota st2.cache st2.db now eventId
        match m.2 with
        | none => ({st2 with cache := m.1}, .eventNotFound)
        | some (.obj _) => ({st2 with cache := m.1}, .exn)
        | some (.int r) =>
          if r ≤ 0 then ({st2 with cache := m.1}, .capacityFull)
          else step45 {st2 with cache := m.1} userId eventId fault

/-- cancel_registration (lines 357-370): delete the reservation row; when
a row was deleted, decrement occupancy, re-increment the cached quota and
drop the per-event detail cache entry. With no matching row nothing is
touched and the success response is still returned. A TypeError from incr
on a non-numeric quota value escapes before the commit, rolling back the
durable changes. -/
def cancel_registration (st : SysState) (userId eventId : Nat) :
    SysState × Outcome :=
  if (eventId, userId) ∈ st.db.registrations then
    match st.cache.incr (.quota eventId) with
    | none => (st, .exn)
    | some q =>
      ({st with
          db := { (st.db.bumpOccupancy eventId (-1)) with
                  registrations := removeReg st.db.registrations eventId userId },
          cache := q.1.delete (.eventDetail eventId)}, .success)
  else (st, .success)

/-- The bucket-map invariant of the limiter at an instant: every stored
bucket holds between 0 and capacity tokens and was last refilled no later
than that instant. -/
def limInv (rl : RateLimiter) (now : ℚ) : Prop :=
  ∀ k b, alookup k rl.buckets = some b →
    0 ≤ b.tokens ∧ b.tokens ≤ rl.capacity ∧ b.last_refill ≤ now

/-- Concrete cache for refuting C5: the quota entry is stale at time 20. -/
def cacheC5 : MemoryCache := ⟨[(.quota 1, .int 5)], [(.quota 1, 10)]⟩

/-- Concrete captcha store for refuting C4. -/
def svcC4 : CaptchaService := ⟨[("s", ⟨"AB12", 0⟩)]⟩

/-- Concrete state for the C1 witness: cached quota already 0, so the
step-4 decrement goes negative. -/
def stC1 : SysState :=
  ⟨⟨[(.quota 1, .int 0)], []⟩, ⟨10, 2, []⟩, ⟨[]⟩, ⟨[(1, ⟨5, 5⟩)], []⟩⟩

/-- Concrete state for the C2 witness: one seat cached, user 7 already
holds a reservation for event 1. -/
def stC2 : SysState :=
  ⟨⟨[(.quota 1, .int 1)], []⟩, ⟨10, 2, []⟩, ⟨[("s", ⟨"AB", 0⟩)]⟩,
   ⟨[(1, ⟨5, 4⟩)], [(1, 7)]⟩⟩

/-- Concrete state for refuting C3: one seat cached, no prior
reservation; the store fault is injected at the commit step. -/
def stC3 : SysState :=
  ⟨⟨[(.quota 1, .int 1)], []⟩, ⟨10, 2, []⟩, ⟨[("s", ⟨"AB", 0⟩)]⟩,
   ⟨[(1, ⟨5, 4⟩)], []⟩⟩

/-- Concrete state for refuting C7: detail and list read projections are
both cached at the moment of a granted registration. -/
def stC7 : SysState :=
  ⟨⟨[(.quota 1, .int 5), (.eventDetail 1, .obj "event detail"),
     (.eventList, .obj "event list")],
    [(.quota 1, 3600), (.eventDetail 1, 300), (.eventList, 60)]⟩,
   ⟨10, 2, []⟩, ⟨[("s", ⟨"AB", 0⟩)]⟩, ⟨[(1, ⟨5, 0⟩)], []⟩⟩

/-- Concrete state for the C8 witness: user 7 has no reservation for
event 1 (only user 9 does). -/
def stC8 : SysState :=
  ⟨⟨[(.quota 1, .int 2)], []⟩, ⟨10, 2, []⟩, ⟨[]⟩, ⟨[(1, ⟨5, 3⟩)], [(1, 9)]⟩⟩

theorem alookup_ainsert_self {α β : Type} [DecidableEq α] (k : α) (v : β)
    (l : List (α × β)) : alookup k (ainsert k v l) = some v := by
  simp [ainsert, alookup]

theorem alookup_aerase_self {α β : Type} [DecidableEq α] (k : α)
    (l : List (α × β)) : alookup k (aerase k l) = none := by
  induction l with
  | nil => simp [aerase, alookup]
  | cons p t ih =>
    by_cases h : p.1 = k <;> simp [aerase, alookup, h, ih]

theorem alookup_aerase_ne {α β : Type} [DecidableEq α] {k k' : α}
    (h : k' ≠ k) (l : List (α × β)) :
    alookup k' (aerase k l) = alookup k' l := by
  have hk : k ≠ k' := Ne.symm h
  induction l with
  | nil => simp [aerase]
  | cons p t ih =>
    by_cases hp : p.1 = k
    · simp [aerase, alookup, hp, hk, ih]
    · by_cases hq : p.1 = k' <;> simp [aerase, alookup, hp, hq, h, ih]

theorem alookup_ainsert_ne {α β : Type} [DecidableEq α] {k k' : α}
    (h : k' ≠ k) (v : β) (l : List (α × β)) :
    alookup k' (ainsert k v l) = alookup k' l := by
  have : k ≠ k' := fun e => h e.symm
  simp [ainsert, alookup, this, alookup_aerase_ne h]

/-- When get reports a value, the cache was not mutated and the value is
the raw stored one. -/
theorem get_eq_some {c : MemoryCache} {now : ℚ} {key : CacheKey} {v : CVal}
    (h : (c.get now key).2 = some v) :
    (c.get now key).1 = c ∧ alookup key c.cache = some v := by
  unfold MemoryCache.get at h ⊢
  rcases he : alookup key c.expiry with _ | e
  · simp [he] at h ⊢
    exact h
  · simp [he] at h ⊢
    by_cases hlt : e < now
    · simp [hlt] at h
    · simp [hlt] at h ⊢
      exact h

/-- C9: incr and decr on a key absent from both dicts create the counter
with no expiry stamp, so every later get, at any time whatsoever, returns
the counter value and leaves the cache unchanged. -/
theorem C9_incr_creates_unexpiring_counter (c : MemoryCache) (key : CacheKey)
    (hc : alookup key c.cache = none) (he : alookup key c.expiry = none) :
    c.incr key = some (⟨ainsert key (.int 1) c.cache, c.expiry⟩, 1)
  ∧ c.decr key = some (⟨ainsert key (.int (-1)) c.cache, c.expiry⟩, -1)
  ∧ (∀ now : ℚ, MemoryCache.get ⟨ainsert key (.int 1) c.cache, c.expiry⟩ now key
      = (⟨ainsert key (.int 1) c.cache, c.expiry⟩, some (.int 1)))
  ∧ (∀ now : ℚ, MemoryCache.get ⟨ainsert key (.int (-1)) c.cache, c.expiry⟩ now key
      = (⟨ainsert key (.int (-1)) c.cache, c.expiry⟩, some (.int (-1)))) := by
  refine ⟨?_, ?_, ?_, ?_⟩ <;>
    simp [MemoryCache.incr, MemoryCache.decr, MemoryCache.get, hc, he,
      alookup_ainsert_self]

/-- Closed instance of C9 at the empty cache. -/
theorem C9_incr_creates_unexpiring_counter_witness :
    (MemoryCache.mk [] []).incr (.quota 1) = some (⟨[(.quota 1, .int 1)], []⟩, 1)
  ∧ MemoryCache.get ⟨[(.quota 1, .int 1)], []⟩ 999999 (.quota 1)
      = (⟨[(.quota 1, .int 1)], []⟩, some (.int 1)) := by
  have h := C9_incr_creates_unexpiring_counter ⟨[], []⟩ (.quota 1) rfl rfl
  exact ⟨h.1, h.2.2.1 999999⟩

/-- C5 counterexample: in cacheC5 the quota entry carries expiry stamp 10;
at time 20 get deletes it and reports absent, yet incr applied to the very
same state uses the stale stored value 5 and yields 6, not 0 + 1 = 1: an
expired entry is not logically absent to increment. -/
theorem C5_counterexample :
    (cacheC5.get 20 (.quota 1)).2 = none
  ∧ cacheC5.incr (.quota 1) = some (⟨[(.quota 1, .int 6)], [(.quota 1, 10)]⟩, 6)
  ∧ (6 : Int) ≠ 0 + 1 := by decide

/-- C5 amended: get honours expiry (an expired entry is evicted and
reported absent, never returned), and increment or decrement on a missing
key start from 0; but increment and decrement consult only the raw value
dict, never the expiry dict, so an expired-but-present entry contributes
its stale value rather than 0. -/
theorem C5_amended_lazy_expiry (c : MemoryCache) (key : CacheKey)
    (now e : ℚ) (v : Int) :
    (alookup key c.expiry = some e → e < now →
      c.get now key = (⟨aerase key c.cache, aerase key c.expiry⟩, none))
  ∧ (alookup key c.cache = none →
      c.incr key = some (⟨ainsert key (.int 1) c.cache, c.expiry⟩, 1)
    ∧ c.decr key = some (⟨ainsert key (.int (-1)) c.cache, c.expiry⟩, -1))
  ∧ (alookup key c.cache = some (.int v) →
      c.incr key = some (⟨ainsert key (.int (v + 1)) c.cache, c.expiry⟩, v + 1)
    ∧ c.decr key = some (⟨ainsert key (.int (v - 1)) c.cache, c.expiry⟩, v - 1)) := by
  refine ⟨fun he hlt => ?_, fun hc => ⟨?_, ?_⟩, fun hc => ⟨?_, ?_⟩⟩
  · simp [MemoryCache.get, he, hlt]
  · simp [MemoryCache.incr, hc]
  · simp [MemoryCache.decr, hc]
  · simp [MemoryCache.incr, hc]
  · simp [MemoryCache.decr, hc]

/-- Closed instance of C5 amended at a concrete cache and time. -/
theorem C5_amended_lazy_expiry_witness :
    cacheC5.get 20 (.quota 1) = (⟨[], []⟩, none)
  ∧ cacheC5.incr (.quota 1)
      = some (⟨[(.quota 1, .int 6)], [(.quota 1, 10)]⟩, 6) := by
  have h := C5_amended_lazy_expiry cacheC5 (.quota 1) 20 10 5
  exact ⟨h.1 rfl (by decide), (h.2.2 rfl).1⟩

/-- C4 counterexample: for svcC4 (code AB12 issued at time 0), a failed
attempt at time 10 with ZZZZ leaves the stored challenge in place (the
state is unchanged), and a second verify with the correct code then
succeeds — the challenge is not deleted regardless of match outcome, and a
second verify with the same session is not always false. -/
theorem C4_counterexample :
    svcC4.verify 10 (some "s") (some "ZZZZ") = .ok (svcC4, false)
  ∧ svcC4.verify 10 (some "s") (some "AB12") = .ok (⟨[]⟩, true) := by
  have h1 : lowerStr "AB12" ≠ lowerStr "ZZZZ" := by decide
  constructor
  · norm_num [CaptchaService.verify, svcC4, alookup, h1]
  · norm_num [CaptchaService.verify, svcC4, alookup, aerase]

/-- C4 amended: when a stored, unexpired challenge is found, verify
deletes it only when the case-insensitive comparison matches: a matching
call consumes the challenge, so repeating it returns false; a failed
comparison leaves the service state unchanged, so the code can still be
consumed later. -/
theorem C4_amended_delete_only_on_match (s : CaptchaService) (now : ℚ)
    (sid : String) (cand : String) (ch : Challenge)
    (hfound : alookup sid s.codes = some ch)
    (hfresh : ¬ 300 < now - ch.time) :
    (lowerStr ch.code = lowerStr cand →
        s.verify now (some sid) (some cand) = .ok (⟨aerase sid s.codes⟩, true)
      ∧ CaptchaService.verify ⟨aerase sid s.codes⟩ now (some sid) (some cand)
          = .ok (⟨aerase sid s.codes⟩, false))
  ∧ (lowerStr ch.code ≠ lowerStr cand →
        s.verify now (some sid) (some cand) = .ok (s, false)) := by
  constructor
  · intro hm
    constructor
    · simp [CaptchaService.verify, hfound, hfresh, hm]
    · simp [CaptchaService.verify, alookup_aerase_self]
  · intro hm
    simp [CaptchaService.verify, hfound, hfresh, hm]

/-- Closed instance of C4 amended at svcC4. -/
theorem C4_amended_delete_only_on_match_witness :
    svcC4.verify 10 (some "s") (some "ab12") = .ok (⟨[]⟩, true)
  ∧ svcC4.verify 10 (some "s") (some "ZZZZ") = .ok (svcC4, false) := by
  have h := C4_amended_delete_only_on_match svcC4 10 "s" "ab12" ⟨"AB12", 0⟩
    rfl (by norm_num)
  have h2 := C4_amended_delete_only_on_match svcC4 10 "s" "ZZZZ" ⟨"AB12", 0⟩
    rfl (by norm_num)
  exact ⟨(h.1 (by decide)).1, h2.2 (by decide)⟩

/-- C10: with a stored, unexpired challenge for the session, verify with
an absent (None) candidate aborts with an exception instead of returning
false; consequently submit_registration invoked with no captcha field in
the request body, once past the rate limiter, ends in a propagated
exception. -/
theorem C10_none_captcha_raises (s : CaptchaService) (now : ℚ) (sid : String)
    (ch : Challenge) (hfound : alookup sid s.codes = some ch)
    (hfresh : ¬ 300 < now - ch.time) :
    s.verify now (some sid) none = .error ()
  ∧ ∀ (st : SysState) (userId eventId : Nat) (fault : Bool),
      st.captcha = s →
      (st.limiter.allow now ("reg:" ++ toString userId)).2 = true →
      (submit_registration st now userId eventId none (some sid) fault).2
        = .exn := by
  have hv : s.verify now (some sid) none = .error () := by
    simp [CaptchaService.verify, hfound, hfresh]
  refine ⟨hv, ?_⟩
  intro st userId eventId fault hcap hallow
  simp [submit_registration, hallow, hcap, hv]

/-- Closed instance of C10 at a concrete state. -/
theorem C10_none_captcha_raises_witness :
    CaptchaService.verify ⟨[("s", ⟨"AB12", 0⟩)]⟩ 10 (some "s") none
      = .error () := by
  exact (C10_none_captcha_raises ⟨[("s", ⟨"AB12", 0⟩)]⟩ 10 "s" ⟨"AB12", 0⟩
    rfl (by norm_num)).1

/-- One allow call on a burst-state bucket (fresh, or holding
K - min n K tokens last refilled at the same instant): it succeeds
exactly when n < K and leaves K - min (n+1) K tokens. -/
theorem allow_burst_step (K n : ℕ) (now : ℚ) (key : String)
    (rl : RateLimiter) (hcap : rl.capacity = (K : ℚ))
    (hbk : (alookup key rl.buckets).getD ⟨rl.capacity, now⟩
            = ⟨(K : ℚ) - ((min n K : ℕ) : ℚ), now⟩) :
    (rl.allow now key).2 = decide (n < K)
  ∧ alookup key (rl.allow now key).1.buckets
      = some ⟨(K : ℚ) - ((min (n + 1) K : ℕ) : ℚ), now⟩ := by
  have h0 : (0 : ℚ) ≤ ((min n K : ℕ) : ℚ) := Nat.cast_nonneg _
  have hmr : min (K : ℚ) ((K : ℚ) - ((min n K : ℕ) : ℚ) + (now - now) * rl.refill_rate)
      = (K : ℚ) - ((min n K : ℕ) : ℚ) := by
    rw [sub_self, zero_mul, add_zero]
    exact min_eq_right (by linarith)
  by_cases hlt : n < K
  · have hm1 : min n K = n := Nat.min_eq_left (le_of_lt hlt)
    have hm2 : min (n + 1) K = n + 1 := Nat.min_eq_left hlt
    have h1 : (1 : ℚ) ≤ (K : ℚ) - ((min n K : ℕ) : ℚ) := by
      rw [hm1]
      have hnk : ((n : ℚ) + 1) ≤ (K : ℚ) := by exact_mod_cast hlt
      linarith
    constructor
    · simp only [RateLimiter.allow]
      rw [hbk, hcap]
      simp only [hmr]
      rw [if_pos h1]
      simp [hlt]
    · simp only [RateLimiter.allow]
      rw [hbk, hcap]
      simp only [hmr]
      rw [if_pos h1]
      simp only [alookup_ainsert_self]
      rw [hm1, hm2]
      push_cast
      ring_nf
  · have hm1 : min n K = K := Nat.min_eq_right (Nat.le_of_not_lt hlt)
    have hm2 : min (n + 1) K = K :=
      Nat.min_eq_right (Nat.le_succ_of_le (Nat.le_of_not_lt hlt))
    have hz : (K : ℚ) - ((min n K : ℕ) : ℚ) = 0 := by rw [hm1]; ring
    have h1 : ¬ (1 : ℚ) ≤ (K : ℚ) - ((min n K : ℕ) : ℚ) := by
      rw [hz]; norm_num
    constructor
    · simp only [RateLimiter.allow]
      rw [hbk, hcap]
      simp only [hmr]
      rw [if_neg h1]
      simp [hlt]
    · simp only [RateLimiter.allow]
      rw [hbk, hcap]
      simp only [hmr]
      rw [if_neg h1]
      simp only [alookup_ainsert_self]
      rw [hz, hm2]
      simp

/-- After n same-instant allow calls on a fresh limiter of capacity K the
bucket state is the burst state of allow_burst_step, and the capacity and
refill rate are unchanged. -/
theorem allowSeq_burst (K : ℕ) (rate now : ℚ) (key : String) :
    ∀ n : ℕ,
      (RateLimiter.allowSeq ⟨(K : ℚ), rate, []⟩ now key n).capacity = (K : ℚ)
    ∧ (alookup key (RateLimiter.allowSeq ⟨(K : ℚ), rate, []⟩ now key n).buckets).getD
          ⟨(RateLimiter.allowSeq ⟨(K : ℚ), rate, []⟩ now key n).capacity, now⟩
        = ⟨(K : ℚ) - ((min n K : ℕ) : ℚ), now⟩ := by
  intro n
  induction n with
  | zero =>
    constructor
    · rfl
    · simp [RateLimiter.allowSeq, alookup]
  | succ n ih =>
    have hstep := allow_burst_step K n now key _ ih.1 ih.2
    constructor
    · simp only [RateLimiter.allowSeq]
      rcases hc : alookup key (RateLimiter.allowSeq ⟨(K : ℚ), rate, []⟩ now key n).buckets with
        _ | b <;>
        simp only [RateLimiter.allow] <;> split <;> simp [ih.1]
    · simp only [RateLimiter.allowSeq]
      rw [hstep.2]
      rfl

/-- The boolean answer of the (n+1)-st same-instant allow call on a fresh
limiter of natural capacity K: allowed exactly for the first K calls. -/
theorem nthAllow_burst (K : ℕ) (rate now : ℚ) (key : String) (n : ℕ) :
    RateLimiter.nthAllow ⟨(K : ℚ), rate, []⟩ now key n = decide (n < K) := by
  have h := allowSeq_burst K rate now key n
  exact (allow_burst_step K n now key _ h.1 h.2).1

/-- One allow call keeps every bucket, existing or just created, inside
the band 0 ≤ tokens ≤ capacity, provided capacity and refill rate are
nonnegative and the prior state satisfies the invariant. -/
theorem allow_preserves_inv (rl : RateLimiter) (now : ℚ) (key : String)
    (hc : 0 ≤ rl.capacity) (hr : 0 ≤ rl.refill_rate)
    (hinv : limInv rl now) :
    ∀ k2 b, alookup k2 (rl.allow now key).1.buckets = some b →
      0 ≤ b.tokens ∧ b.tokens ≤ rl.capacity := by
  have hb0 : 0 ≤ ((alookup key rl.buckets).getD ⟨rl.capacity, now⟩).tokens
    ∧ ((alookup key rl.buckets).getD ⟨rl.capacity, now⟩).tokens ≤ rl.capacity
    ∧ ((alookup key rl.buckets).getD ⟨rl.capacity, now⟩).last_refill ≤ now := by
    rcases hl : alookup key rl.buckets with _ | b
    · simp only [hl, Option.getD]
      exact ⟨hc, le_refl _, le_refl _⟩
    · simp only [hl, Option.getD]
      exact hinv key b hl
  set b0 := (alookup key rl.buckets).getD ⟨rl.capacity, now⟩ with hb0def
  have htl : 0 ≤ min rl.capacity (b0.tokens + (now - b0.last_refill) * rl.refill_rate) := by
    refine le_min hc ?_
    have : 0 ≤ (now - b0.last_refill) * rl.refill_rate :=
      mul_nonneg (by linarith [hb0.2.2]) hr
    linarith [hb0.1]
  have htu : min rl.capacity (b0.tokens + (now - b0.last_refill) * rl.refill_rate)
      ≤ rl.capacity := min_le_left _ _
  intro k2 b hb
  simp only [RateLimiter.allow, ← hb0def] at hb
  by_cases h1 : (1 : ℚ) ≤ min rl.capacity (b0.tokens + (now - b0.last_refill) * rl.refill_rate)
  · rw [if_pos h1] at hb
    by_cases hk : k2 = key
    · subst hk
      rw [alookup_ainsert_self] at hb
      cases hb
      dsimp only
      exact ⟨by linarith, by linarith⟩
    · rw [alookup_ainsert_ne hk] at hb
      exact ⟨(hinv k2 b hb).1, (hinv k2 b hb).2.1⟩
  · rw [if_neg h1] at hb
    by_cases hk : k2 = key
    · subst hk
      rw [alookup_ainsert_self] at hb
      cases hb
      exact ⟨htl, htu⟩
    · rw [alookup_ainsert_ne hk] at hb
      exact ⟨(hinv k2 b hb).1, (hinv k2 b hb).2.1⟩

/-- C6: (i) under nonnegative capacity and refill rate, every bucket of
the limiter satisfies 0 ≤ tokens ≤ capacity before (the limInv hypothesis)
and after any allow call; (ii) the first allow for an identity starts the
bucket at full capacity, so with at least one token the call is granted
and leaves capacity - 1 tokens; (iii) on a cold start with no time
elapsing between calls, the first K calls are allowed and every later
call is denied, for natural capacity K and any refill rate. -/
theorem C6_bucket_invariant_and_burst (rl : RateLimiter) (now : ℚ)
    (key k2 : String) (K : ℕ) (rate t : ℚ) (n : ℕ)
    (hc : 0 ≤ rl.capacity) (hr : 0 ≤ rl.refill_rate)
    (hinv : limInv rl now) :
    (∀ b, alookup k2 (rl.allow now key).1.buckets = some b →
        0 ≤ b.tokens ∧ b.tokens ≤ rl.capacity)
  ∧ (alookup key rl.buckets = none → 1 ≤ rl.capacity →
        (rl.allow now key).2 = true
      ∧ alookup key (rl.allow now key).1.buckets
          = some ⟨rl.capacity - 1, now⟩)
  ∧ RateLimiter.nthAllow ⟨(K : ℚ), rate, []⟩ t key n = decide (n < K) := by
  refine ⟨fun b hb => allow_preserves_inv rl now key hc hr hinv k2 b hb,
    fun hnone h1 => ?_, nthAllow_burst K rate t key n⟩
  have hmr : min rl.capacity (rl.capacity + (now - now) * rl.refill_rate)
      = rl.capacity := by
    rw [sub_self, zero_mul, add_zero, min_self]
  constructor
  · simp only [RateLimiter.allow, hnone]
    simp only [Option.getD]
    rw [hmr, if_pos h1]
  · simp only [RateLimiter.allow, hnone]
    simp only [Option.getD]
    rw [hmr, if_pos h1]
    simp [alookup_ainsert_self]

/-- Closed instance of C6 with the deployed parameters (capacity 10,
refill rate 2): the 10th same-instant call is allowed, the 11th denied,
and a first call on a fresh identity is granted leaving 9 tokens. -/
theorem C6_bucket_invariant_and_burst_witness :
    RateLimiter.nthAllow ⟨(10 : ℚ), 2, []⟩ 0 "reg:7" 9 = true
  ∧ RateLimiter.nthAllow ⟨(10 : ℚ), 2, []⟩ 0 "reg:7" 10 = false
  ∧ (RateLimiter.allow ⟨(10 : ℚ), 2, []⟩ 0 "reg:7").2 = true := by
  have h9 := C6_bucket_invariant_and_burst ⟨(10 : ℚ), 2, []⟩ 0 "reg:7" "reg:7"
    10 2 0 9 (by norm_num) (by norm_num) (by intro k b hb; simp [alookup] at hb)
  have h10 := C6_bucket_invariant_and_burst ⟨(10 : ℚ), 2, []⟩ 0 "reg:7" "reg:7"
    10 2 0 10 (by norm_num) (by norm_num) (by intro k b hb; simp [alookup] at hb)
  refine ⟨by simpa using h9.2.2, by simpa using h10.2.2, ?_⟩
  exact (h9.2.1 (by simp [alookup]) (by norm_num)).1

/-- A successful decr writes back one less than the numeric reading of
the key and returns it; the prior reading was the result plus one. -/
theorem decr_eq_some {c : MemoryCache} {key : CacheKey} {c' : MemoryCache}
    {n : Int} (h : c.decr key = some (c', n)) :
    c' = ⟨ainsert key (.int n) c.cache, c.expiry⟩
  ∧ c.counterVal key = n + 1 := by
  unfold MemoryCache.decr at h
  rcases hl : alookup key c.cache with _ | v
  · simp only [hl, Option.getD, Option.some.injEq, Prod.mk.injEq] at h
    obtain ⟨h1, h2⟩ := h
    subst h2
    refine ⟨h1.symm, ?_⟩
    simp only [MemoryCache.counterVal, hl]
    omega
  · rcases v with v | s
    · simp only [hl, Option.getD, Option.some.injEq, Prod.mk.injEq] at h
      obtain ⟨h1, h2⟩ := h
      subst h2
      refine ⟨h1.symm, ?_⟩
      simp only [MemoryCache.counterVal, hl]
      omega
    · simp [hl, Option.getD] at h

/-- materializeQuota reporting a numeric remaining value stores exactly
that value at the quota key of the returned cache. -/
theorem materializeQuota_lookup {c : MemoryCache} {db : DB} {now : ℚ}
    {eventId : Nat} {c' : MemoryCache} {r : Int}
    (h : materializeQuota c db now eventId = (c', some (.int r))) :
    alookup (.quota eventId) c'.cache = some (.int r) := by
  unfold materializeQuota at h
  rcases hg : (c.get now (.quota eventId)).2 with _ | v
  · rw [hg] at h
    rcases he : alookup eventId db.events with _ | ev
    · rw [he] at h
      simp at h
    · rw [he] at h
      simp only [Prod.mk.injEq, Option.some.injEq] at h
      rw [← h.1, ← h.2]
      simp [MemoryCache.set, alookup_ainsert_self]
  · rw [hg] at h
    simp only [Prod.mk.injEq, Option.some.injEq] at h
    obtain ⟨hge, hcl⟩ := get_eq_some hg
    rw [← h.1, hge, hcl, h.2]

/-- materializeQuota touches no cache key other than the quota key. -/
theorem materializeQuota_other {c : MemoryCache} {db : DB} {now : ℚ}
    {eventId : Nat} {c' : MemoryCache} {mv : Option CVal} {k : CacheKey}
    (h : materializeQuota c db now eventId = (c', mv))
    (hk : k ≠ .quota eventId) :
    alookup k c'.cache = alookup k c.cache := by
  unfold materializeQuota at h
  have hget : alookup k (c.get now (.quota eventId)).1.cache
      = alookup k c.cache := by
    rcases he : alookup (.quota eventId) c.expiry with _ | e
    · simp [MemoryCache.get, he]
    · by_cases hlt : e < now
      · simp [MemoryCache.get, he, hlt, alookup_aerase_ne hk]
      · simp [MemoryCache.get, he, hlt]
  rcases hg : (c.get now (.quota eventId)).2 with _ | v
  · rcases he : alookup eventId db.events with _ | ev
    · simp only [hg, he, Prod.mk.injEq] at h
      rw [← h.1]
      exact hget
    · simp only [hg, he, Prod.mk.injEq] at h
      rw [← h.1]
      simp only [MemoryCache.set]
      rw [alookup_ainsert_ne hk]
      exact hget
  · simp only [hg, Prod.mk.injEq] at h
    rw [← h.1]
    exact hget

/-- C1: when the step-4 decrement of the cached quota yields a negative
value, the controller re-increments the counter and denies with the
capacity-exhausted response; the counter reading ends exactly at its
pre-call value, and in particular a nonnegative reading stays
nonnegative. -/
theorem C1_negative_decrement_rolls_back (st : SysState)
    (userId eventId : Nat) (fault : Bool) (c1 : MemoryCache) (n : Int)
    (hdec : st.cache.decr (.quota eventId) = some (c1, n)) (hneg : n < 0) :
    (step45 st userId eventId fault).2 = .capacityFull
  ∧ (step45 st userId eventId fault).1.cache.counterVal (.quota eventId)
      = st.cache.counterVal (.quota eventId)
  ∧ (0 ≤ st.cache.counterVal (.quota eventId) →
      0 ≤ (step45 st userId eventId fault).1.cache.counterVal (.quota eventId)) := by
  obtain ⟨hc1, hcv⟩ := decr_eq_some hdec
  subst hc1
  have hni : MemoryCache.incr
      ⟨ainsert (.quota eventId) (.int n) st.cache.cache, st.cache.expiry⟩
      (.quota eventId)
      = some (⟨ainsert (.quota eventId) (.int (n + 1))
          (ainsert (.quota eventId) (.int n) st.cache.cache),
          st.cache.expiry⟩, n + 1) := by
    simp [MemoryCache.incr, alookup_ainsert_self]
  refine ⟨?_, ?_, ?_⟩
  · simp [step45, preDeduct, hdec, hneg, hni]
  · rw [hcv]
    simp [step45, preDeduct, hdec, hneg, hni, MemoryCache.counterVal,
      alookup_ainsert_self]
  · rw [hcv]
    simp [step45, preDeduct, hdec, hneg, hni, MemoryCache.counterVal,
      alookup_ainsert_self]

/-- Closed instance of C1: quota cached at 0, the decrement hits -1, the
call is denied and the counter reading is back at its prior value. -/
theorem C1_negative_decrement_rolls_back_witness :
    (step45 stC1 7 1 false).2 = .capacityFull
  ∧ (step45 stC1 7 1 false).1.cache.counterVal (.quota 1)
      = stC1.cache.counterVal (.quota 1) := by
  have h := C1_negative_decrement_rolls_back stC1 7 1 false
    ⟨[(.quota 1, .int (-1))], []⟩ (-1) (by decide) (by decide)
  exact ⟨h.1, h.2.1⟩

/-- C2: a uniqueness conflict at the durable commit, after the whole
pipeline passed and the quota was pre-deducted from a materialized
remaining value r, answers already-registered and leaves the cached quota
reading back at r. -/
theorem C2_conflict_restores_quota (st : SysState) (now : ℚ)
    (userId eventId : Nat) (cand sid : Option String)
    (cs2 : CaptchaService) (c3 : MemoryCache) (r : Int)
    (hallow : (st.limiter.allow now ("reg:" ++ toString userId)).2 = true)
    (hcap : st.captcha.verify now sid cand = .ok (cs2, true))
    (hmat : materializeQuota st.cache st.db now eventId = (c3, some (.int r)))
    (hr : 0 < r)
    (hconf : (eventId, userId) ∈ st.db.registrations) :
    (submit_registration st now userId eventId cand sid false).2
      = .alreadyRegistered
  ∧ (submit_registration st now userId eventId cand sid false).1.cache.counterVal
      (.quota eventId) = r := by
  have hq3 : alookup (.quota eventId) c3.cache = some (.int r) :=
    materializeQuota_lookup hmat
  have hnle : ¬ r ≤ 0 := not_le.mpr hr
  have hd : ¬ r - 1 < 0 := by omega
  constructor <;>
    simp [submit_registration, hallow, hcap, hmat, hnle, step45, preDeduct,
      MemoryCache.decr, hq3, hd, commitStep, hconf, MemoryCache.incr,
      alookup_ainsert_self, MemoryCache.counterVal]

/-- Closed instance of C2 at stC2: user 7 is already registered for event
1, the submit answers already-registered and the quota reading is 1
again. -/
theorem C2_conflict_restores_quota_witness :
    (submit_registration stC2 0 7 1 (some "ab") (some "s") false).2
      = .alreadyRegistered
  ∧ (submit_registration stC2 0 7 1 (some "ab") (some "s") false).1.cache.counterVal
      (.quota 1) = 1 := by
  have hallow : (stC2.limiter.allow 0 ("reg:" ++ toString (7 : Nat))).2 = true := by
    norm_num [stC2, RateLimiter.allow, alookup, min_def]
  have hls : lowerStr "AB" = lowerStr "ab" := by decide
  have hcap : stC2.captcha.verify 0 (some "s") (some "ab") = .ok (⟨[]⟩, true) := by
    norm_num [stC2, CaptchaService.verify, alookup, hls, aerase]
  have hmat : materializeQuota stC2.cache stC2.db 0 1
      = (stC2.cache, some (.int 1)) := by decide
  exact C2_conflict_restores_quota stC2 0 7 1 (some "ab") (some "s") ⟨[]⟩
    stC2.cache 1 hallow hcap hmat (by norm_num) (by decide)

/-- C3 counterexample: at stC3 (quota cached 1, no prior reservation),
injecting a store fault at the commit makes submit end in a propagated
exception rather than any structured store-unavailable response, and the
cached quota reading drops from 1 to 0: the pre-deduction is not rolled
back before the fault surfaces. -/
theorem C3_counterexample :
    (submit_registration stC3 0 7 1 (some "ab") (some "s") true).2 = .exn
  ∧ stC3.cache.counterVal (.quota 1) = 1
  ∧ (submit_registration stC3 0 7 1 (some "ab") (some "s") true).1.cache.counterVal
      (.quota 1) = 0 := by
  have hallow : (RateLimiter.allow ⟨(10 : ℚ), 2, []⟩ 0
      ("reg:" ++ toString (7 : Nat))).2 = true := by
    norm_num [RateLimiter.allow, alookup, min_def]
  have hls : lowerStr "AB" = lowerStr "ab" := by decide
  have hcap : CaptchaService.verify ⟨[("s", ⟨"AB", 0⟩)]⟩ 0 (some "s")
      (some "ab") = .ok (⟨[]⟩, true) := by
    norm_num [CaptchaService.verify, alookup, hls, aerase]
  refine ⟨?_, by decide, ?_⟩ <;>
    norm_num [submit_registration, stC3, hallow, hcap, materializeQuota,
      MemoryCache.get, alookup, step45, preDeduct, MemoryCache.decr,
      MemoryCache.incr, commitStep, MemoryCache.counterVal, ainsert, aerase]

/-- C3 amended: a store fault other than the uniqueness conflict at the
commit step escapes as an exception (no structured outcome), and the
cached quota reading stays at r - 1: the step-4 pre-deduction is not
rolled back. -/
theorem C3_store_fault_keeps_prededuction (st : SysState) (now : ℚ)
    (userId eventId : Nat) (cand sid : Option String)
    (cs2 : CaptchaService) (c3 : MemoryCache) (r : Int)
    (hallow : (st.limiter.allow now ("reg:" ++ toString userId)).2 = true)
    (hcap : st.captcha.verify now sid cand = .ok (cs2, true))
    (hmat : materializeQuota st.cache st.db now eventId = (c3, some (.int r)))
    (hr : 0 < r)
    (hnoc : (eventId, userId) ∉ st.db.registrations) :
    (submit_registration st now userId eventId cand sid true).2 = .exn
  ∧ (submit_registration st now userId eventId cand sid true).1.cache.counterVal
      (.quota eventId) = r - 1 := by
  have hq3 : alookup (.quota eventId) c3.cache = some (.int r) :=
    materializeQuota_lookup hmat
  have hnle : ¬ r ≤ 0 := not_le.mpr hr
  have hd : ¬ r - 1 < 0 := by omega
  constructor <;>
    simp [submit_registration, hallow, hcap, hmat, hnle, step45, preDeduct,
      MemoryCache.decr, hq3, hd, commitStep, MemoryCache.counterVal,
      alookup_ainsert_self]

/-- Closed instance of the C3 amended statement at stC3. -/
theorem C3_store_fault_keeps_prededuction_witness :
    (submit_registration stC3 0 7 1 (some "ab") (some "s") true).2 = .exn
  ∧ (submit_registration stC3 0 7 1 (some "ab") (some "s") true).1.cache.counterVal
      (.quota 1) = 0 := by
  have hallow : (stC3.limiter.allow 0 ("reg:" ++ toString (7 : Nat))).2 = true := by
    norm_num [stC3, RateLimiter.allow, alookup, min_def]
  have hls : lowerStr "AB" = lowerStr "ab" := by decide
  have hcap : stC3.captcha.verify 0 (some "s") (some "ab") = .ok (⟨[]⟩, true) := by
    norm_num [stC3, CaptchaService.verify, alookup, hls, aerase]
  have hmat : materializeQuota stC3.cache stC3.db 0 1
      = (stC3.cache, some (.int 1)) := by decide
  have h := C3_store_fault_keeps_prededuction stC3 0 7 1 (some "ab") (some "s")
    ⟨[]⟩ stC3.cache 1 hallow hcap hmat (by norm_num) (by decide)
  exact ⟨h.1, h.2.trans (by norm_num)⟩

/-- C7 counterexample: at stC7 both the detail and the list projection of
event 1 are cached; after a granted submit the event-list entry is still
present in the cache, so not every cached read projection is
invalidated. -/
theorem C7_counterexample :
    (submit_registration stC7 0 7 1 (some "ab") (some "s") false).2 = .granted
  ∧ alookup .eventList
      (submit_registration stC7 0 7 1 (some "ab") (some "s") false).1.cache.cache
      = some (.obj "event list") := by
  have hallow : (RateLimiter.allow ⟨(10 : ℚ), 2, []⟩ 0
      ("reg:" ++ toString (7 : Nat))).2 = true := by
    norm_num [RateLimiter.allow, alookup, min_def]
  have hls : lowerStr "AB" = lowerStr "ab" := by decide
  have hcap : CaptchaService.verify ⟨[("s", ⟨"AB", 0⟩)]⟩ 0 (some "s")
      (some "ab") = .ok (⟨[]⟩, true) := by
    norm_num [CaptchaService.verify, alookup, hls, aerase]
  constructor
  · norm_num [submit_registration, stC7, hallow, hcap, materializeQuota,
      MemoryCache.get, alookup, step45, preDeduct, MemoryCache.decr,
      MemoryCache.incr, commitStep, MemoryCache.delete, DB.bumpOccupancy,
      ainsert, aerase]
  · norm_num [submit_registration, stC7, hallow, hcap, materializeQuota,
      MemoryCache.get, alookup, step45, preDeduct, MemoryCache.decr,
      MemoryCache.incr, commitStep, MemoryCache.delete, DB.bumpOccupancy,
      ainsert, aerase]
    exact fun h => nomatch h

/-- C7 amended: a granted submit deletes only the per-event detail cache
entry; the event-list entry is left exactly as it was before the call. -/
theorem C7_amended_detail_only_invalidation (st : SysState) (now : ℚ)
    (userId eventId : Nat) (cand sid : Option String)
    (cs2 : CaptchaService) (c3 : MemoryCache) (r : Int)
    (hallow : (st.limiter.allow now ("reg:" ++ toString userId)).2 = true)
    (hcap : st.captcha.verify now sid cand = .ok (cs2, true))
    (hmat : materializeQuota st.cache st.db now eventId = (c3, some (.int r)))
    (hr : 0 < r)
    (hnoc : (eventId, userId) ∉ st.db.registrations) :
    (submit_registration st now userId eventId cand sid false).2 = .granted
  ∧ alookup (.eventDetail eventId)
      (submit_registration st now userId eventId cand sid false).1.cache.cache
      = none
  ∧ alookup .eventList
      (submit_registration st now userId eventId cand sid false).1.cache.cache
      = alookup .eventList st.cache.cache := by
  have hq3 : alookup (.quota eventId) c3.cache = some (.int r) :=
    materializeQuota_lookup hmat
  have hnle : ¬ r ≤ 0 := not_le.mpr hr
  have hd : ¬ r - 1 < 0 := by omega
  have hne1 : (CacheKey.eventList : CacheKey) ≠ .quota eventId := fun h => by
    cases h
  have hne2 : (CacheKey.eventList : CacheKey) ≠ .eventDetail eventId := fun h => by
    cases h
  have hlist : alookup .eventList c3.cache = alookup .eventList st.cache.cache :=
    materializeQuota_other hmat hne1
  refine ⟨?_, ?_, ?_⟩ <;>
    simp [submit_registration, hallow, hcap, hmat, hnle, step45, preDeduct,
      MemoryCache.decr, hq3, hd, commitStep, hnoc, MemoryCache.delete,
      alookup_aerase_self, alookup_aerase_ne hne2, alookup_ainsert_ne hne1,
      hlist]

/-- Closed instance of the C7 amended statement at stC7. -/
theorem C7_amended_detail_only_invalidation_witness :
    (submit_registration stC7 0 7 1 (some "ab") (some "s") false).2 = .granted
  ∧ alookup (.eventDetail 1)
      (submit_registration stC7 0 7 1 (some "ab") (some "s") false).1.cache.cache
      = none := by
  have hallow : (stC7.limiter.allow 0 ("reg:" ++ toString (7 : Nat))).2 = true := by
    norm_num [stC7, RateLimiter.allow, alookup, min_def]
  have hls : lowerStr "AB" = lowerStr "ab" := by decide
  have hcap : stC7.captcha.verify 0 (some "s") (some "ab") = .ok (⟨[]⟩, true) := by
    norm_num [stC7, CaptchaService.verify, alookup, hls, aerase]
  have hmat : materializeQuota stC7.cache stC7.db 0 1
      = (stC7.cache, some (.int 5)) := by decide
  have h := C7_amended_detail_only_invalidation stC7 0 7 1 (some "ab") (some "s")
    ⟨[]⟩ stC7.cache 5 hallow hcap hmat (by norm_num) (by decide)
  exact ⟨h.1, h.2.1⟩

/-- C8: cancelling a registration that does not exist returns the success
response and leaves the entire system state untouched: database rows,
occupancy, cached quota and cached projections are all exactly as
before. -/
theorem C8_cancel_without_reservation_is_noop (st : SysState)
    (userId eventId : Nat)
    (h : (eventId, userId) ∉ st.db.registrations) :
    cancel_registration st userId eventId = (st, .success) := by
  simp [cancel_registration, h]

/-- Closed instance of C8 at stC8 (user 7 holds no reservation). -/
theorem C8_cancel_without_reservation_is_noop_witness :
    cancel_registration stC8 7 1 = (stC8, .success) :=
  C8_cancel_without_reservation_is_noop stC8 7 1 (by decide)

end CampusEvent
